import Mathlib

/-!
Verification of the field-waypoint-generator repository.

The repository's line generator is `generate_dummy_waypoints` in
`src/waypoint_app.py`:

    def generate_dummy_waypoints(polygon, width, n_headland, direction):
        minx, miny, maxx, maxy = polygon.bounds
        lines = []
        y = miny + width
        while y < maxy - width:
            lines.append(LineString([(minx, y), (maxx, y)]))
            y += width
        return gpd.GeoDataFrame(geometry=lines, crs="EPSG:4326")

Coordinates are modelled as rationals; a polygon is its vertex ring, a list
of points.  Rational addition and subtraction are spelled through `mkRat`
(`qadd`, `qsub`) so that the model evaluates by kernel reduction; `qadd_eq`
and `qsub_eq` show they are exactly `+` and `-` on `ℚ`.  The `while` loop is
embedded with explicit fuel: `genLoop` returns `none` when the fuel runs out
before the loop condition fails, so `none` at every fuel bound models
divergence, and a `some` result is the loop's true output since `genLoop` is
monotone in fuel.
-/

namespace WaypointGen

/-- A 2D point, as in shapely coordinate tuples. -/
abbrev Point : Type := ℚ × ℚ

/-- A guidance line: a `LineString` of two points. -/
abbrev Seg : Type := Point × Point

/-- Rational addition written through `mkRat`, so that it evaluates by kernel
reduction; `qadd_eq` proves it equal to `+`. -/
def qadd (a b : ℚ) : ℚ := mkRat (a.num * b.den + b.num * a.den) (a.den * b.den)

/-- Rational subtraction written through `mkRat`, so that it evaluates by
kernel reduction; `qsub_eq` proves it equal to `-`. -/
def qsub (a b : ℚ) : ℚ := mkRat (a.num * b.den - b.num * a.den) (a.den * b.den)

/-- Minimum of two rationals, written out so that it evaluates by kernel
reduction; `qmin_eq` proves it equal to `min`. -/
def qmin (a b : ℚ) : ℚ := if a ≤ b then a else b

/-- Maximum of two rationals, written out so that it evaluates by kernel
reduction; `qmax_eq` proves it equal to `max`. -/
def qmax (a b : ℚ) : ℚ := if a ≤ b then b else a

/-- Bounds of a vertex ring, as shapely `polygon.bounds`:
`(minx, miny, maxx, maxy)` over the ring's coordinates.  Shapely rejects an
empty ring at `Polygon` construction, so the `[]` case is unreachable; it is
given the default `(0, 0, 0, 0)`. -/
def boundsOf : List Point → ℚ × ℚ × ℚ × ℚ
  | [] => (0, 0, 0, 0)
  | p :: ps =>
      (ps.foldl (fun a q => qmin a q.1) p.1,
       ps.foldl (fun a q => qmin a q.2) p.2,
       ps.foldl (fun a q => qmax a q.1) p.1,
       ps.foldl (fun a q => qmax a q.2) p.2)

/-- The `minx` component of `boundsOf`. -/
def minxOf (poly : List Point) : ℚ := (boundsOf poly).1

/-- The `miny` component of `boundsOf`. -/
def minyOf (poly : List Point) : ℚ := (boundsOf poly).2.1

/-- The `maxx` component of `boundsOf`. -/
def maxxOf (poly : List Point) : ℚ := (boundsOf poly).2.2.1

/-- The `maxy` component of `boundsOf`. -/
def maxyOf (poly : List Point) : ℚ := (boundsOf poly).2.2.2

/-- The `while y < maxy - width` loop of `generate_dummy_waypoints`, with
explicit fuel: each iteration appends `LineString [(minx, y), (maxx, y)]`
and advances `y` by `width`.  `none` means the fuel was exhausted while the
loop condition still held; a loop that runs forever returns `none` at every
fuel. -/
def genLoop (minx maxx maxy width : ℚ) : ℕ → ℚ → Option (List Seg)
  | 0, y => if y < qsub maxy width then none else some []
  | fuel + 1, y =>
      if y < qsub maxy width then
        (genLoop minx maxx maxy width fuel (qadd y width)).map
          (fun ls => ((minx, y), (maxx, y)) :: ls)
      else
        some []

/-- Number of iterations the loop performs from `y` when `0 < width`:
the count of naturals `k` with `y + k * width < maxy - width`. -/
def nIter (maxy width y : ℚ) : ℕ := (⌈(maxy - width - y) / width⌉).toNat

/-- Fuel that suffices for the loop whenever it terminates: for positive
width it dominates the iteration count (`loopFuel_suff`); otherwise the loop
either exits at once (zero fuel suffices) or never exits (no fuel
suffices). -/
def loopFuel (miny maxy width : ℚ) : ℕ :=
  if 0 < width then (qsub maxy miny).num.toNat * width.den + 1 else 0

/-- Embedding of `generate_dummy_waypoints` from `src/waypoint_app.py`:
reads `polygon.bounds`, runs the sweep loop from `y = miny + width` while
`y < maxy - width`, and returns the horizontal lines
`LineString [(minx, y), (maxx, y)]` in emission order.  `none` models the
call never returning (the loop diverging). -/
def generate_dummy_waypoints (polygon : List Point) (width : ℚ)
    (n_headland : ℕ) (direction : ℚ) : Option (List Seg) :=
  match boundsOf polygon with
  | (minx, miny, maxx, maxy) =>
      genLoop minx maxx maxy width (loopFuel miny maxy width) (qadd miny width)

/-- State-passing form of `generate_dummy_waypoints`: Python passes the
polygon by reference, and the body's only use of it is the attribute read
`polygon.bounds`, with no mutating operation, so the polygon's state at
return is the entry state, returned here alongside the result. -/
def generate_dummy_waypoints_st (polygon : List Point) (width : ℚ)
    (n_headland : ℕ) (direction : ℚ) : Option (List Seg) × List Point :=
  (generate_dummy_waypoints polygon width n_headland direction, polygon)

/-- Modelled from the spec: the waypoint sequencer loop of
`generate_waypoints_from_lines` (module `waypoint_gen`, absent from the
sources; only its caller `src/app.py` line 49 is present).  Spec section 4.4:
for each line in order take its two endpoints, emit them end-then-start when
the `reverse` flag is set and start-then-end otherwise, then flip the flag. -/
def seqFrom (reverse : Bool) : List Seg → List Point
  | [] => []
  | l :: ls => (if reverse then [l.2, l.1] else [l.1, l.2]) ++ seqFrom (!reverse) ls

/-- Modelled from the spec: `generate_waypoints_from_lines` (module
`waypoint_gen`, absent from the sources; only its caller `src/app.py` line 49
is present).  Spec section 4.4: the `reverse` flag starts false and the
ordered line set is sequenced into one waypoint path. -/
def generate_waypoints_from_lines (lines : List Seg) : List Point :=
  seqFrom false lines

/-- The concrete-scenario field of spec section 8: the rectangle with corners
`(0,0), (100,0), (100,50), (0,50)`, as a closed ring. -/
def rectField : List Point :=
  [(0, 0), (100, 0), (100, 50), (0, 50), (0, 0)]

/-- A two-point "polygon" ring, used for the invalid-input claims. -/
def twoPointRing : List Point := [(0, 0), (10, 30)]

/-- A low rectangle whose bounding-box height (8) is at most twice the tool
width used with it (5), used for the degenerate-coverage claims. -/
def lowRect : List Point := [(0, 0), (10, 0), (10, 8), (0, 8), (0, 0)]

theorem qadd_eq (a b : ℚ) : qadd a b = a + b := (Rat.add_def' a b).symm

theorem qsub_eq (a b : ℚ) : qsub a b = a - b := (Rat.sub_def' a b).symm

theorem qmin_eq (a b : ℚ) : qmin a b = min a b := (min_def a b).symm

theorem qmax_eq (a b : ℚ) : qmax a b = max a b := (max_def a b).symm

theorem seqFrom_length (reverse : Bool) (lines : List Seg) :
    (seqFrom reverse lines).length = 2 * lines.length := by
  induction lines generalizing reverse with
  | nil => simp [seqFrom]
  | cons l ls ih =>
      cases reverse <;> simp [seqFrom, ih] <;> omega

theorem seqFrom_getElem (reverse : Bool) (lines : List Seg) (i : ℕ) :
    (seqFrom reverse lines)[2 * i]? =
      (lines[i]?).map (fun l => cond ((decide (i % 2 = 1)).xor reverse) l.2 l.1) ∧
    (seqFrom reverse lines)[2 * i + 1]? =
      (lines[i]?).map (fun l => cond ((decide (i % 2 = 1)).xor reverse) l.1 l.2) := by
  induction lines generalizing reverse i with
  | nil => simp [seqFrom]
  | cons l ls ih =>
      cases i with
      | zero => cases reverse <;> simp [seqFrom]
      | succ j =>
          have hlen : (if reverse then [l.2, l.1] else [l.1, l.2]).length = 2 := by
            cases reverse <;> rfl
          have h2 : 2 * (j + 1) = 2 + 2 * j := by omega
          have h3 : 2 * (j + 1) + 1 = 2 + (2 * j + 1) := by omega
          have hpar : decide ((j + 1) % 2 = 1) = !decide (j % 2 = 1) := by
            rcases Nat.even_or_odd j with hj | hj
            · have h0 : j % 2 = 0 := Nat.even_iff.mp hj
              have h1 : (j + 1) % 2 = 1 := by omega
              simp [h0, h1]
            · have h0 : j % 2 = 1 := Nat.odd_iff.mp hj
              have h1 : (j + 1) % 2 = 0 := by omega
              simp [h0, h1]
          have hx : ∀ b : Bool, (!b).xor reverse = b.xor (!reverse) := by
            intro b; cases b <;> cases reverse <;> rfl
          obtain ⟨ih1, ih2⟩ := ih (!reverse) j
          constructor
          · rw [seqFrom, h2, List.getElem?_append_right (by omega),
              hlen, Nat.add_sub_cancel_left, ih1, hpar, hx, List.getElem?_cons_succ]
          · rw [seqFrom, h3, List.getElem?_append_right (by omega),
              hlen, Nat.add_sub_cancel_left, ih2, hpar, hx, List.getElem?_cons_succ]

theorem nIter_eq_zero {maxy width y : ℚ} (hw : 0 < width) :
    nIter maxy width y = 0 ↔ maxy - width ≤ y := by
  rw [nIter, Int.toNat_eq_zero, Int.ceil_le, Int.cast_zero, div_le_iff₀ hw,
    zero_mul, sub_nonpos]

theorem nIter_succ {maxy width y : ℚ} (hw : 0 < width) (h : y < maxy - width) :
    nIter maxy width y = nIter maxy width (y + width) + 1 := by
  have harg : (maxy - width - (y + width)) / width = (maxy - width - y) / width - 1 := by
    rw [show maxy - width - (y + width) = (maxy - width - y) - width by ring, sub_div,
      div_self hw.ne']
  have hpos : (1 : ℤ) ≤ ⌈(maxy - width - y) / width⌉ := by
    refine Int.ceil_pos.mpr (div_pos (by linarith) hw)
  rw [nIter, nIter, harg, Int.ceil_sub_one]
  omega

theorem nIter_lt_iff {maxy width y : ℚ} (hw : 0 < width) (k : ℕ) :
    k < nIter maxy width y ↔ y + k * width < maxy - width := by
  rw [nIter, Int.lt_toNat, Int.lt_iff_add_one_le, Int.add_one_le_iff, Int.lt_ceil]
  rw [lt_div_iff₀ hw]
  push_cast
  constructor
  · intro h; linarith
  · intro h; linarith

theorem genLoop_eq {maxy width : ℚ} (minx maxx : ℚ) (hw : 0 < width) :
    ∀ (fuel : ℕ) (y : ℚ), nIter maxy width y ≤ fuel →
      genLoop minx maxx maxy width fuel y =
        some ((List.range (nIter maxy width y)).map
          (fun k : ℕ => ((minx, y + (k : ℚ) * width), (maxx, y + (k : ℚ) * width)))) := by
  intro fuel
  induction fuel with
  | zero =>
      intro y hy
      have h0 : nIter maxy width y = 0 := Nat.le_zero.mp hy
      have hc : ¬ y < maxy - width := not_lt.mpr ((nIter_eq_zero hw).mp h0)
      rw [genLoop, qsub_eq, if_neg hc, h0]
      simp
  | succ f ih =>
      intro y hy
      by_cases hc : y < maxy - width
      · have hstep := nIter_succ hw hc
        have hle : nIter maxy width (y + width) ≤ f := by omega
        rw [genLoop, qsub_eq, if_pos hc, qadd_eq, ih (y + width) hle, hstep]
        rw [Option.map_some', List.range_succ_eq_map, List.map_cons, List.map_map]
        refine congrArg some ?_
        refine List.cons_eq_cons.mpr ⟨?_, ?_⟩
        · have : y + ((0 : ℕ) : ℚ) * width = y := by push_cast; ring
          rw [this]
        · refine List.map_congr_left ?_
          intro k _
          have : y + ((Nat.succ k : ℕ) : ℚ) * width = y + width + (k : ℚ) * width := by
            push_cast; ring
          simp only [Function.comp_apply, this]
      · have h0 : nIter maxy width y = 0 := (nIter_eq_zero hw).mpr (not_lt.mp hc)
        rw [genLoop, qsub_eq, if_neg hc, h0]
        simp

theorem rat_le_num {q : ℚ} (hq : 0 ≤ q) : q ≤ (q.num : ℚ) := by
  have hden : (1 : ℚ) ≤ (q.den : ℚ) := by
    have := q.den_nz
    exact_mod_cast Nat.one_le_iff_ne_zero.mpr this
  have hnum : (0 : ℚ) ≤ (q.num : ℚ) := by
    exact_mod_cast Rat.num_nonneg.mpr hq
  calc q = (q.num : ℚ) / (q.den : ℚ) := (Rat.num_div_den q).symm
    _ ≤ (q.num : ℚ) := div_le_self hnum hden

theorem rat_inv_le_den {q : ℚ} (hq : 0 < q) : q⁻¹ ≤ (q.den : ℚ) := by
  have hnum : (1 : ℚ) ≤ (q.num : ℚ) := by
    exact_mod_cast Rat.num_pos.mpr hq
  have hden : (0 : ℚ) ≤ (q.den : ℚ) := by positivity
  have h1 : q⁻¹ = (q.den : ℚ) / (q.num : ℚ) := by
    conv_lhs => rw [← Rat.num_div_den q]
    rw [inv_div]
  rw [h1]
  exact div_le_self hden hnum

theorem loopFuel_suff {miny maxy width : ℚ} (hw : 0 < width) :
    nIter maxy width (miny + width) ≤ loopFuel miny maxy width := by
  rw [loopFuel, if_pos hw, qsub_eq]
  have harg : maxy - width - (miny + width) = (maxy - miny) - 2 * width := by ring
  rw [nIter, harg]
  set H := maxy - miny with hH
  by_cases hx : ⌈(H - 2 * width) / width⌉ ≤ 0
  · rw [Int.toNat_of_nonpos hx]; omega
  · push_neg at hx
    have hxpos : (0 : ℚ) < (H - 2 * width) / width := Int.ceil_pos.mp hx
    have hHpos : 0 < H := by
      have := (div_pos_iff.mp hxpos)
      rcases this with ⟨h1, _⟩ | ⟨_, h2⟩
      · linarith
      · linarith
    have hle1 : (H - 2 * width) / width ≤ H / width :=
      (div_le_div_iff_of_pos_right hw).mpr (by linarith)
    have hle2 : H / width ≤ (H.num : ℚ) * (width.den : ℚ) := by
      rw [div_eq_mul_inv]
      refine mul_le_mul (rat_le_num hHpos.le) (rat_inv_le_den hw) ?_ ?_
      · positivity
      · exact_mod_cast Rat.num_nonneg.mpr hHpos.le
    have hceil : ⌈(H - 2 * width) / width⌉ ≤ H.num * (width.den : ℤ) := by
      refine Int.ceil_le.mpr ?_
      push_cast
      linarith
    have hnn : 0 ≤ H.num := Rat.num_nonneg.mpr hHpos.le
    calc (⌈(H - 2 * width) / width⌉).toNat
        ≤ (H.num * (width.den : ℤ)).toNat := Int.toNat_le_toNat hceil
      _ = H.num.toNat * width.den := by
          conv_lhs => rw [← Int.toNat_of_nonneg hnn, ← Nat.cast_mul]
          rw [Int.toNat_natCast]
      _ ≤ H.num.toNat * width.den + 1 := Nat.le_succ _

theorem gen_spec (polygon : List Point) (width : ℚ) (n_headland : ℕ)
    (direction : ℚ) (hw : 0 < width) :
    generate_dummy_waypoints polygon width n_headland direction =
      some ((List.range (nIter (maxyOf polygon) width (minyOf polygon + width))).map
        (fun k : ℕ => ((minxOf polygon, (minyOf polygon + width) + (k : ℚ) * width),
                       (maxxOf polygon, (minyOf polygon + width) + (k : ℚ) * width)))) := by
  have hb : generate_dummy_waypoints polygon width n_headland direction =
      genLoop (minxOf polygon) (maxxOf polygon) (maxyOf polygon) width
        (loopFuel (minyOf polygon) (maxyOf polygon) width)
        (qadd (minyOf polygon) width) := rfl
  rw [hb, qadd_eq]
  exact genLoop_eq _ _ hw _ _ (loopFuel_suff hw)

theorem genLoop_zero_width (minx maxx maxy y : ℚ) (h : y < maxy) :
    ∀ fuel : ℕ, genLoop minx maxx maxy 0 fuel y = none := by
  intro fuel
  induction fuel with
  | zero =>
      rw [genLoop, qsub_eq, sub_zero, if_pos h]
  | succ f ih =>
      rw [genLoop, qsub_eq, sub_zero, if_pos h, qadd_eq, add_zero, ih]
      rfl

/-- Claim C1, counterexample: on the spec's concrete rectangle with
`toolWidth = 5`, `headlandPasses = 0`, `drivingAngle = 90`, the generator
does not produce 11 guidance lines. -/
theorem rect_scenario_not_eleven_lines :
    ¬ (generate_dummy_waypoints rectField 5 0 90).map List.length = some 11 := by
  decide

/-- Claim C1, amended: on the concrete rectangle `(0,0)-(100,50)` with
`toolWidth = 5`, the generator produces exactly 8 guidance lines at
y-values 5, 10, ..., 40, each spanning the full width `[0, 100]`, and
returns only lines; sequencing those 8 lines per the spec's waypoint
sequencer gives 16 points alternating left-to-right / right-to-left. -/
theorem rect_scenario_produces_eight_lines :
    generate_dummy_waypoints rectField 5 0 90 =
      some [((0, 5), (100, 5)), ((0, 10), (100, 10)), ((0, 15), (100, 15)),
            ((0, 20), (100, 20)), ((0, 25), (100, 25)), ((0, 30), (100, 30)),
            ((0, 35), (100, 35)), ((0, 40), (100, 40))] ∧
    generate_waypoints_from_lines
        [((0, 5), (100, 5)), ((0, 10), (100, 10)), ((0, 15), (100, 15)),
         ((0, 20), (100, 20)), ((0, 25), (100, 25)), ((0, 30), (100, 30)),
         ((0, 35), (100, 35)), ((0, 40), (100, 40))] =
      [(0, 5), (100, 5), (100, 10), (0, 10), (0, 15), (100, 15), (100, 20), (0, 20),
       (0, 25), (100, 25), (100, 30), (0, 30), (0, 35), (100, 35), (100, 40), (0, 40)] := by
  constructor <;> decide

/-- Claim C2, counterexample: with `toolWidth = 5` and `headlandPasses = 1`
(`h = 5`) on the concrete rectangle, the first emitted line is
`((0,5),(100,5))`, not the claimed `((minX - 2h, minY - h), (maxX + 2h, minY - h))
= ((-10,-5),(110,-5))`. -/
theorem first_line_not_at_offset_start :
    (generate_dummy_waypoints rectField 5 1 90).bind List.head? =
      some ((0, 5), (100, 5)) ∧
    (((0, 5), (100, 5)) : Seg) ≠ ((((-10 : ℚ)), ((-5 : ℚ))), (110, -5)) := by
  constructor <;> decide

/-- Claim C2, amended: for every polygon and positive width (headland count
and driving angle are ignored, no rotation happens), the generator emits
horizontal lines in the original frame starting at `y = minY + w`, each
spanning `[minX, maxX]`, stepping `y` by `w` (so consecutive lines are spaced
exactly `w`), and stops as soon as `y ≥ maxY - w`: line number `k` exists
exactly when `minY + w + k·w < maxY - w`. -/
theorem sweep_lines_start_inside_and_step_width (polygon : List Point)
    (width : ℚ) (n_headland : ℕ) (direction : ℚ) (hw : 0 < width) :
    ∃ N : ℕ,
      generate_dummy_waypoints polygon width n_headland direction =
        some ((List.range N).map
          (fun k : ℕ => ((minxOf polygon, (minyOf polygon + width) + (k : ℚ) * width),
                         (maxxOf polygon, (minyOf polygon + width) + (k : ℚ) * width)))) ∧
      ∀ k : ℕ, k < N ↔
        (minyOf polygon + width) + (k : ℚ) * width < maxyOf polygon - width :=
  ⟨nIter (maxyOf polygon) width (minyOf polygon + width),
   gen_spec polygon width n_headland direction hw,
   fun k => nIter_lt_iff hw k⟩

/-- Witness for `sweep_lines_start_inside_and_step_width` at the concrete
rectangle with width 5 and one headland pass. -/
theorem sweep_lines_witness :
    0 < (5 : ℚ) ∧
    (∃ N : ℕ,
      generate_dummy_waypoints rectField 5 1 90 =
        some ((List.range N).map
          (fun k : ℕ => ((minxOf rectField, (minyOf rectField + 5) + (k : ℚ) * 5),
                         (maxxOf rectField, (minyOf rectField + 5) + (k : ℚ) * 5)))) ∧
      ∀ k : ℕ, k < N ↔
        (minyOf rectField + 5) + (k : ℚ) * 5 < maxyOf rectField - 5) :=
  ⟨by decide, sweep_lines_start_inside_and_step_width rectField 5 1 90 (by decide)⟩

/-- Claim C3: for every guidance line set, the waypoint path has exactly
twice as many points as there are lines: two endpoints per line, none
fabricated or dropped. -/
theorem waypoint_count_conservation (lines : List Seg) :
    (generate_waypoints_from_lines lines).length = 2 * lines.length :=
  seqFrom_length false lines

/-- Claim C4: for every ordered guidance line set and every index `i`, line
`i` contributes waypoints `2i` and `2i+1`; they are start-then-end when `i`
is even and end-then-start when `i` is odd. -/
theorem waypoint_alternation (lines : List Seg) (i : ℕ) :
    (generate_waypoints_from_lines lines)[2 * i]? =
      (lines[i]?).map (fun l => if i % 2 = 0 then l.1 else l.2) ∧
    (generate_waypoints_from_lines lines)[2 * i + 1]? =
      (lines[i]?).map (fun l => if i % 2 = 0 then l.2 else l.1) := by
  obtain ⟨h1, h2⟩ := seqFrom_getElem false lines i
  constructor
  · rw [generate_waypoints_from_lines, h1]
    rcases Nat.mod_two_eq_zero_or_one i with hp | hp <;> simp [hp]
  · rw [generate_waypoints_from_lines, h2]
    rcases Nat.mod_two_eq_zero_or_one i with hp | hp <;> simp [hp]

/-- Claim C5, counterexample: a two-point "polygon" ring is not rejected; the
generator happily produces guidance lines from its bounding box. -/
theorem two_point_ring_produces_output :
    generate_dummy_waypoints twoPointRing 5 0 90 =
      some [((0, 5), (10, 5)), ((0, 10), (10, 10)), ((0, 15), (10, 15)),
            ((0, 20), (10, 20))] := by
  decide

/-- Claim C5, amended: `generate_dummy_waypoints` performs no input
validation.  A ring with fewer than 3 distinct vertices is accepted and
produces output, and `toolWidth = 0` on a polygon of positive bounding-box
height does not signal any error: the generation loop simply never
terminates (no fuel bound makes it return). -/
theorem no_input_validation :
    (generate_dummy_waypoints twoPointRing 5 0 90).isSome = true ∧
    generate_dummy_waypoints rectField 0 0 90 = none ∧
    ∀ fuel : ℕ,
      genLoop (minxOf rectField) (maxxOf rectField) (maxyOf rectField) 0 fuel
        (qadd (minyOf rectField) 0) = none := by
  refine ⟨by decide, by decide, ?_⟩
  have h1 : qadd (minyOf rectField) 0 = 0 := by decide
  have h2 : maxyOf rectField = (50 : ℚ) := by decide
  rw [h1, h2]
  exact genLoop_zero_width _ _ _ _ (by norm_num)

/-- Claim C6: the empty guidance line set yields the empty waypoint path,
with no error. -/
theorem empty_lines_empty_waypoints :
    generate_waypoints_from_lines ([] : List Seg) = ([] : List Point) := rfl

/-- Claim C7: the pipeline is deterministic — two invocations on identical
inputs produce identical line sets and identical waypoint paths, element
order included (both stages are pure functions of their arguments). -/
theorem pipeline_deterministic (polygon : List Point) (width : ℚ)
    (n_headland : ℕ) (direction : ℚ) (lines : List Seg) :
    generate_dummy_waypoints polygon width n_headland direction =
      generate_dummy_waypoints polygon width n_headland direction ∧
    generate_waypoints_from_lines lines = generate_waypoints_from_lines lines :=
  ⟨rfl, rfl⟩

/-- Claim C8: the caller's polygon is never mutated — the polygon state after
a call to the generator equals the state at entry. -/
theorem polygon_not_mutated (polygon : List Point) (width : ℚ)
    (n_headland : ℕ) (direction : ℚ) :
    (generate_dummy_waypoints_st polygon width n_headland direction).2 = polygon :=
  rfl

/-- Claim C9: the output of `generate_dummy_waypoints` does not depend on the
`n_headland` and `direction` arguments — they are accepted and ignored. -/
theorem headland_and_angle_ignored (polygon : List Point) (width : ℚ)
    (n1 n2 : ℕ) (d1 d2 : ℚ) :
    generate_dummy_waypoints polygon width n1 d1 =
      generate_dummy_waypoints polygon width n2 d2 :=
  rfl

/-- Claim C10: for every polygon and every width strictly greater than 0 the
generation loop terminates (the call returns a result), and a polygon whose
bounding-box height is at most twice the width yields an empty line set. -/
theorem loop_terminates_for_positive_width (polygon : List Point)
    (width : ℚ) (n_headland : ℕ) (direction : ℚ) (hw : 0 < width) :
    (generate_dummy_waypoints polygon width n_headland direction).isSome = true ∧
    (maxyOf polygon - minyOf polygon ≤ 2 * width →
      generate_dummy_waypoints polygon width n_headland direction = some []) := by
  constructor
  · rw [gen_spec polygon width n_headland direction hw]
    rfl
  · intro hh
    rw [gen_spec polygon width n_headland direction hw,
      (nIter_eq_zero hw).mpr (by linarith)]
    rfl

/-- Witness for `loop_terminates_for_positive_width` on a rectangle of
height 8 with width 5 (height at most twice the width). -/
theorem loop_terminates_witness :
    0 < (5 : ℚ) ∧
    ((generate_dummy_waypoints lowRect 5 0 90).isSome = true ∧
     (maxyOf lowRect - minyOf lowRect ≤ 2 * 5 →
       generate_dummy_waypoints lowRect 5 0 90 = some [])) :=
  ⟨by decide, loop_terminates_for_positive_width lowRect 5 0 90 (by decide)⟩

end WaypointGen
